import Mathlib

/-!
Verification of the category-partitioned dataset splitter of dataOpsToolkit.

The repository has two splitter variants:

* `scripts/python/large_dataset_splitter.py` (polars based): scans a CSV with
  all columns read as text, extracts the distinct values of the category
  column (`_extract_unique_categories`), then for each category filters the
  frame on equality with that category value, optionally drops the category
  column, and writes the result to `output_dir/<cat>/<stem>.<ext>`
  (`split_and_save_by_category`).  Its `main` wraps the whole per-file loop
  in a single try/except that logs the first error and stops.

* `scripts/python/dataset_splitter.py` (pandas based): reads the whole file,
  casts the category column to a categorical dtype, groups by it
  (`groupby(by=column_category, observed=True)`, which drops rows whose
  category value is missing), optionally drops the category column, and
  writes each group to `output_dir/<cat>/<stem>_<cat>.<ext>`
  (`split_and_save_data`).  Its `main` runs the pipeline over a directory
  only when `process_all` is set, and over a single file when the source
  path is a file; a directory with `process_all` left false does nothing.

Fields are modelled as `Option String`: both readers load every column as
text and represent an absent or empty field as a null (polars) or NaN
(pandas), which comparisons and group-by treat specially.  A frame is a
header plus a list of rows positionally aligned with the header.
-/

namespace DataOps

/-- One parsed row: text fields aligned with the header; `none` is a
missing/empty field (polars null, pandas NaN). -/
abbrev Row := List (Option String)

/-- A loaded delimited file: header names plus data rows. -/
structure Frame where
  header : List String
  rows : List Row
  deriving DecidableEq

/-- Field of a row at a column index (out of range reads as missing). -/
def fieldAt (r : Row) (i : Nat) : Option String :=
  (r.get? i).join

/-- Resolve a column name against the header, as both libraries do when an
expression references a column by name. -/
def catIdx (fr : Frame) (col : String) : Option Nat :=
  fr.header.findIdx? (fun c => c == col)

/-- Errors raised by the polars splitter: a missing category column raises
`ColumnNotFoundError` at collect time; a null category value raises
`TypeError` when `Path.joinpath` receives `None`. -/
inductive SplitError where
  | columnNotFound
  | nullCategoryPath
  deriving DecidableEq

/-- `_extract_unique_categories`: select the category column, collapse
duplicates, return the values as a list (null included, order not
significant in polars; `List.dedup` is one concrete order). -/
def extractUniqueCategories (fr : Frame) (col : String) :
    Except SplitError (List (Option String)) :=
  match catIdx fr col with
  | none => .error .columnNotFound
  | some i => .ok ((fr.rows.map (fun r => fieldAt r i)).dedup)

/-- `pl.all().exclude(col)` / `drop(columns=[col])` on the header. -/
def excludeHeader (header : List String) (col : String) : List String :=
  header.filter (fun c => !(c == col))

/-- Dropping the category column from one row: keep the fields whose header
name differs from `col`. -/
def excludeCol (header : List String) (col : String) (r : Row) : Row :=
  ((header.zip r).filter (fun p => !(p.1 == col))).map Prod.snd

/-- Output header for one sink, depending on `keep_category_col`. -/
def outHeader (fr : Frame) (col : String) (keep : Bool) : List String :=
  if keep then fr.header else excludeHeader fr.header col

/-- Output form of one routed record, depending on `keep_category_col`. -/
def outRow (fr : Frame) (col : String) (keep : Bool) (r : Row) : Row :=
  if keep then r else excludeCol fr.header col r

/-- One output file: the category it is for, its path, and its content
(header plus rows as written by `write_csv` / `to_csv`). -/
structure OutFile where
  cat : String
  path : String
  header : List String
  rows : List Row
  deriving DecidableEq

/-- `lazy_df.filter(pl.col(col).eq(cat))`: rows whose category field equals
the (non-null) literal `c`; a null field compares as null and is dropped by
the filter. -/
def routedRows (fr : Frame) (i : Nat) (c : String) : List Row :=
  fr.rows.filter (fun r => fieldAt r i == some c)

/-- The file written by one iteration of `split_and_save_by_category` for
category `c`: path `output_dir/c/file_name.ext`, filtered rows, category
column optionally excluded. -/
def polarsOut (fr : Frame) (i : Nat) (fileName col outputDir ext : String)
    (keep : Bool) (c : String) : OutFile :=
  { cat := c
  , path := outputDir ++ "/" ++ c ++ "/" ++ fileName ++ "." ++ ext
  , header := outHeader fr col keep
  , rows := (routedRows fr i c).map (outRow fr col keep) }

/-- One iteration of the `for cat in categories` loop of
`split_and_save_by_category`: `output_dir.joinpath(cat)` raises `TypeError`
when `cat` is null, before anything is filtered or written. -/
def splitOne (fr : Frame) (i : Nat) (fileName col outputDir ext : String)
    (keep : Bool) (cat : Option String) : Except SplitError OutFile :=
  match cat with
  | none => .error .nullCategoryPath
  | some c => .ok (polarsOut fr i fileName col outputDir ext keep c)

/-- The save loop of `split_and_save_by_category`: writes one file per
category in order, stopping at the first raised error. -/
def saveLoop (fr : Frame) (i : Nat) (fileName col outputDir ext : String)
    (keep : Bool) : List (Option String) → Except SplitError (List OutFile)
  | [] => .ok []
  | cat :: rest =>
    match splitOne fr i fileName col outputDir ext keep cat with
    | .error e => .error e
    | .ok o =>
      match saveLoop fr i fileName col outputDir ext keep rest with
      | .error e => .error e
      | .ok os => .ok (o :: os)

/-- `split_and_save_by_category`: the filter expression resolves the
category column by name (raising `ColumnNotFoundError` when absent), then
the loop writes one file per category. -/
def splitAndSaveByCategory (fr : Frame) (cats : List (Option String))
    (fileName col outputDir : String) (keep : Bool) (ext : String) :
    Except SplitError (List OutFile) :=
  match catIdx fr col with
  | none => .error .columnNotFound
  | some i => saveLoop fr i fileName col outputDir ext keep cats

/-- One polars split job, as `main` runs it per input file: discovery then
the save loop. -/
def runSplitJob (fr : Frame) (fileName col outputDir : String) (keep : Bool)
    (ext : String) : Except SplitError (List OutFile) :=
  match extractUniqueCategories fr col with
  | .error e => .error e
  | .ok cats => splitAndSaveByCategory fr cats fileName col outputDir keep ext

/-- Result of a polars run: per-file outputs of the jobs that completed,
plus the first error if one was raised (the try/except in `main` wraps the
whole per-file loop, so it catches at most one error and then stops). -/
structure RunResult where
  processed : List (String × List OutFile)
  err : Option SplitError
  deriving DecidableEq

/-- The per-file loop of the polars `main`: files are (stem, frame) pairs;
the first failing job ends the loop with its error logged. -/
def runController (files : List (String × Frame)) (col outputDir : String)
    (keep : Bool) (ext : String) : RunResult :=
  match files with
  | [] => ⟨[], none⟩
  | (nm, fr) :: rest =>
    match runSplitJob fr nm col outputDir keep ext with
    | .error e => ⟨[], some e⟩
    | .ok outs =>
      let r := runController rest col outputDir keep ext
      ⟨(nm, outs) :: r.processed, r.err⟩

/-- Errors raised by the pandas splitter: `astype` raises `KeyError` when
the category column is absent; an unsupported output format raises
`ValueError` from the save-function lookup. -/
inductive PdError where
  | keyError
  | unsupportedFormat
  deriving DecidableEq

/-- The formats present in the `save_functions` dispatch table. -/
def pandasSupported (fmt : String) : Bool :=
  fmt == "csv" || fmt == "txt" || fmt == "xlsx"

/-- Code-point-wise lexicographic order on the character lists of two
strings, the order in which Python compares the keys that pandas sorts. -/
def strLeAux : List Char → List Char → Bool
  | [], _ => true
  | _ :: _, [] => false
  | a :: as, b :: bs =>
    if a.toNat < b.toNat then true
    else if b.toNat < a.toNat then false
    else strLeAux as bs

/-- Lexicographic string comparison by code point. -/
def strLe (a b : String) : Bool := strLeAux a.data b.data

/-- The group keys of `groupby(by=col, observed=True)`: distinct non-null
category values, in sorted order; rows whose category value is NaN belong
to no group. -/
def pandasGroups (fr : Frame) (i : Nat) : List String :=
  List.insertionSort (fun a b => strLe a b = true)
    ((fr.rows.map (fun r => fieldAt r i)).reduceOption.dedup)

/-- The file written for one pandas group: path
`output_dir/c/file_name_c.fmt`, the group's rows in input order, category
column optionally dropped. -/
def pandasOut (fr : Frame) (i : Nat) (col outputDir fileName fmt : String)
    (keep : Bool) (c : String) : OutFile :=
  { cat := c
  , path := outputDir ++ "/" ++ c ++ "/" ++ fileName ++ "_" ++ c ++ "." ++ fmt
  , header := outHeader fr col keep
  , rows := (routedRows fr i c).map (outRow fr col keep) }

/-- One iteration of the group loop of `split_and_save_data`: the
save-function lookup raises for an unsupported format. -/
def pandasSaveOne (fr : Frame) (i : Nat) (col outputDir fileName fmt : String)
    (keep : Bool) (c : String) : Except PdError OutFile :=
  if pandasSupported fmt then
    .ok (pandasOut fr i col outputDir fileName fmt keep c)
  else .error .unsupportedFormat

/-- The group loop of `split_and_save_data`. -/
def pandasLoop (fr : Frame) (i : Nat) (col outputDir fileName fmt : String)
    (keep : Bool) : List String → Except PdError (List OutFile)
  | [] => .ok []
  | c :: rest =>
    match pandasSaveOne fr i col outputDir fileName fmt keep c with
    | .error e => .error e
    | .ok o =>
      match pandasLoop fr i col outputDir fileName fmt keep rest with
      | .error e => .error e
      | .ok os => .ok (o :: os)

/-- `split_and_save_data`: cast the category column (raising `KeyError`
when it is absent), group by it, write one file per group. -/
def splitAndSaveData (fr : Frame) (col outputDir fileName fmt : String)
    (keep : Bool) : Except PdError (List OutFile) :=
  match catIdx fr col with
  | none => .error .keyError
  | some i => pandasLoop fr i col outputDir fileName fmt keep (pandasGroups fr i)

/-- `process_pipeline`: read then split one file; any exception propagates
to the caller (re-raised as `ValueError`). -/
def processPipeline (fr : Frame) (col outputDir fileName fmt : String)
    (keep : Bool) : Except PdError (String × List OutFile) :=
  match splitAndSaveData fr col outputDir fileName fmt keep with
  | .error e => .error e
  | .ok outs => .ok (fileName, outs)

/-- What the pandas `main` sees as its source path: a directory (with the
frames its glob would yield, as stem-frame pairs) or a single file. -/
inductive FsNode where
  | dir (entries : List (String × Frame))
  | file (stem : String) (fr : Frame)

/-- The pipeline loop of the pandas `main` over a directory's files; there
is no try/except, so the first error propagates out of `main`. -/
def pipelineLoop (col outputDir fmt : String) (keep : Bool) :
    List (String × Frame) → Except PdError (List (String × List OutFile))
  | [] => .ok []
  | (nm, fr) :: rest =>
    match processPipeline fr col outputDir nm fmt keep with
    | .error e => .error e
    | .ok x =>
      match pipelineLoop col outputDir fmt keep rest with
      | .error e => .error e
      | .ok xs => .ok (x :: xs)

/-- The pandas `main`: a directory is processed only when `process_all` is
set; a single file is always processed; a directory without `process_all`
falls through both `if` statements and nothing happens. -/
def pandasMain (node : FsNode) (processAll : Bool) (col outputDir fmt : String)
    (keep : Bool) : Except PdError (List (String × List OutFile)) :=
  match node with
  | .dir entries =>
    if processAll then pipelineLoop col outputDir fmt keep entries
    else .ok []
  | .file stem fr =>
    match processPipeline fr col outputDir stem fmt keep with
    | .error e => .error e
    | .ok x => .ok [x]

/-! ### Helper lemmas about the save loops -/

/-- A list of all-non-null categories makes the save loop write one file per
category, in order. -/
theorem saveLoop_map_some (fr : Frame) (i : Nat) (fn col dir ext : String)
    (keep : Bool) (scats : List String) :
    saveLoop fr i fn col dir ext keep (scats.map some) =
      .ok (scats.map (polarsOut fr i fn col dir ext keep)) := by
  induction scats with
  | nil => rfl
  | cons c t ih => simp [saveLoop, splitOne, ih]

/-- A successful save loop forces every category to be non-null and the
outputs to be the per-category files in order. -/
theorem saveLoop_ok_decomp (fr : Frame) (i : Nat) (fn col dir ext : String)
    (keep : Bool) (cats : List (Option String)) (outs : List OutFile)
    (h : saveLoop fr i fn col dir ext keep cats = .ok outs) :
    ∃ scats : List String, cats = scats.map some ∧
      outs = scats.map (polarsOut fr i fn col dir ext keep) := by
  induction cats generalizing outs with
  | nil =>
    refine ⟨[], rfl, ?_⟩
    simpa [saveLoop] using h.symm
  | cons c t ih =>
    cases c with
    | none => simp [saveLoop, splitOne] at h
    | some s =>
      simp only [saveLoop, splitOne] at h
      cases hrec : saveLoop fr i fn col dir ext keep t with
      | error e => rw [hrec] at h; cases h
      | ok os =>
        rw [hrec] at h
        obtain ⟨scats, ht, hos⟩ := ih os hrec
        cases h
        exact ⟨s :: scats, by simp [ht], by simp [hos]⟩

/-- A null category value makes the save loop raise the path error. -/
theorem saveLoop_none_mem (fr : Frame) (i : Nat) (fn col dir ext : String)
    (keep : Bool) (cats : List (Option String)) (h : none ∈ cats) :
    saveLoop fr i fn col dir ext keep cats = .error .nullCategoryPath := by
  induction cats with
  | nil => cases h
  | cons c t ih =>
    cases c with
    | none => simp [saveLoop, splitOne]
    | some s =>
      have ht : none ∈ t := by
        rcases List.mem_cons.mp h with h0 | h0
        · cases h0
        · exact h0
      simp [saveLoop, splitOne, ih ht]

/-- A successful pandas group loop writes one file per group, in order. -/
theorem pandasLoop_ok_decomp (fr : Frame) (i : Nat) (col dir fn fmt : String)
    (keep : Bool) (gs : List String) (outs : List OutFile)
    (h : pandasLoop fr i col dir fn fmt keep gs = .ok outs) :
    outs = gs.map (pandasOut fr i col dir fn fmt keep) := by
  induction gs generalizing outs with
  | nil => simpa [pandasLoop] using h.symm
  | cons c t ih =>
    simp only [pandasLoop, pandasSaveOne] at h
    cases hsup : pandasSupported fmt with
    | false => rw [hsup] at h; simp at h
    | true =>
      rw [hsup] at h
      simp only [if_pos rfl] at h
      cases hrec : pandasLoop fr i col dir fn fmt keep t with
      | error e => rw [hrec] at h; cases h
      | ok os =>
        rw [hrec] at h
        cases h
        simp [ih os hrec]

/-- A successful polars job decomposes into a resolved column index, an
all-non-null discovered category list, and one output file per category. -/
theorem runSplitJob_ok_decomp (fr : Frame) (fn col dir ext : String)
    (keep : Bool) (outs : List OutFile)
    (h : runSplitJob fr fn col dir keep ext = .ok outs) :
    ∃ (i : Nat) (scats : List String), catIdx fr col = some i ∧
      (fr.rows.map (fun r => fieldAt r i)).dedup = scats.map some ∧
      outs = scats.map (polarsOut fr i fn col dir ext keep) := by
  unfold runSplitJob extractUniqueCategories splitAndSaveByCategory at h
  cases hi : catIdx fr col with
  | none => rw [hi] at h; cases h
  | some i =>
    rw [hi] at h
    simp only at h
    obtain ⟨scats, hc, ho⟩ := saveLoop_ok_decomp fr i fn col dir ext keep _ outs h
    exact ⟨i, scats, rfl, hc, ho⟩

/-- A successful pandas split decomposes into a resolved column index and
one output file per sorted group key. -/
theorem splitAndSaveData_ok_decomp (fr : Frame) (col dir fn fmt : String)
    (keep : Bool) (outs : List OutFile)
    (h : splitAndSaveData fr col dir fn fmt keep = .ok outs) :
    ∃ i : Nat, catIdx fr col = some i ∧
      outs = (pandasGroups fr i).map (pandasOut fr i col dir fn fmt keep) := by
  unfold splitAndSaveData at h
  cases hi : catIdx fr col with
  | none => rw [hi] at h; cases h
  | some i =>
    rw [hi] at h
    simp only at h
    exact ⟨i, rfl, pandasLoop_ok_decomp fr i col dir fn fmt keep _ outs h⟩

/-! ### Helper lemmas about group keys and counting -/

/-- Membership in the pandas group keys is exactly having a non-null
occurrence in the category column. -/
theorem mem_pandasGroups (fr : Frame) (i : Nat) (c : String) :
    c ∈ pandasGroups fr i ↔ some c ∈ fr.rows.map (fun r => fieldAt r i) := by
  unfold pandasGroups
  rw [(List.perm_insertionSort _ _).mem_iff, List.mem_dedup,
    List.reduceOption_mem_iff]

/-- The pandas group keys are distinct. -/
theorem nodup_pandasGroups (fr : Frame) (i : Nat) : (pandasGroups fr i).Nodup :=
  ((List.perm_insertionSort _ _).symm.nodup (List.nodup_dedup _))

/-- In a duplicate-free list, a present value is hit by an equality test
exactly once (literal on the left). -/
theorem countP_beq_left_one {c₀ : String} {scats : List String}
    (hnd : scats.Nodup) (hm : c₀ ∈ scats) :
    scats.countP (fun c => c₀ == c) = 1 := by
  induction scats with
  | nil => cases hm
  | cons a t ih =>
    rw [List.countP_cons]
    rcases List.mem_cons.mp hm with h0 | hmt
    · subst h0
      have hnotin : c₀ ∉ t := (List.nodup_cons.mp hnd).1
      have h0 : t.countP (fun c => c₀ == c) = 0 := by
        refine List.countP_eq_zero.mpr fun x hx hbeq => ?_
        exact hnotin (beq_iff_eq.mp hbeq ▸ hx)
      simp [h0]
    · have hne : ¬(c₀ == a) = true := by
        intro hbeq
        exact (List.nodup_cons.mp hnd).1 (beq_iff_eq.mp hbeq ▸ hmt)
      simp [ih (List.nodup_cons.mp hnd).2 hmt, hne]

/-- Variant of `countP_beq_left_one` with the literal on the right. -/
theorem countP_beq_right_one {c₀ : String} {scats : List String}
    (hnd : scats.Nodup) (hm : c₀ ∈ scats) :
    scats.countP (fun c => c == c₀) = 1 := by
  rw [List.countP_congr (q := fun c => c₀ == c)
    (fun x _ => by constructor <;> (intro hx; exact beq_iff_eq.mpr (beq_iff_eq.mp hx).symm))]
  exact countP_beq_left_one hnd hm

/-- Sums of pointwise sums of naturals split. -/
theorem sum_map_add {α : Type} (l : List α) (f g : α → Nat) :
    (l.map (fun x => f x + g x)).sum = (l.map f).sum + (l.map g).sum := by
  induction l with
  | nil => rfl
  | cons a t ih => simp [ih]; omega

/-- A sum of indicator values is a count. -/
theorem sum_map_ite_eq_countP {α : Type} (l : List α) (p : α → Bool) :
    (l.map (fun x => if p x then 1 else 0)).sum = l.countP p := by
  induction l with
  | nil => rfl
  | cons a t ih =>
    rw [List.countP_cons]
    simp only [List.map_cons, List.sum_cons, ih]
    omega

/-- Routing partitions the row count: summing the per-category routed
counts over distinct categories covering every non-null value yields the
number of rows with a non-null category field. -/
theorem sum_routed_counts (i : Nat) (scats : List String) (rows : List Row)
    (hnd : scats.Nodup)
    (hcov : ∀ r ∈ rows, ∀ c, fieldAt r i = some c → c ∈ scats) :
    (scats.map (fun c => rows.countP (fun r => fieldAt r i == some c))).sum =
      rows.countP (fun r => (fieldAt r i).isSome) := by
  induction rows with
  | nil => simp
  | cons r t ih =>
    have hcovt : ∀ r' ∈ t, ∀ c, fieldAt r' i = some c → c ∈ scats :=
      fun r' h => hcov r' (List.mem_cons_of_mem _ h)
    rw [List.countP_cons]
    have hmap : scats.map (fun c => (r :: t).countP (fun r' => fieldAt r' i == some c)) =
        scats.map (fun c => t.countP (fun r' => fieldAt r' i == some c) +
          (if (fieldAt r i == some c) then 1 else 0)) :=
      List.map_congr_left fun c _ => List.countP_cons _ _ _
    rw [hmap, sum_map_add, ih hcovt, sum_map_ite_eq_countP]
    congr 1
    cases hfr : fieldAt r i with
    | none =>
      simp only [Option.isSome_none, Bool.false_eq_true, if_neg]
      refine (List.countP_eq_zero.mpr fun c _ hbeq => ?_).trans (by simp)
      simp at hbeq
    | some c₀ =>
      have hc₀ : c₀ ∈ scats := hcov r (List.mem_cons_self _ _) c₀ hfr
      have : (scats.countP fun c => some c₀ == some c) =
          scats.countP fun c => c₀ == c :=
        List.countP_congr fun c _ => by
          constructor <;> (intro hx; simpa using hx)
      simp [this, countP_beq_left_one hnd hc₀]

/-- A column name absent from the header does not resolve. -/
theorem catIdx_eq_none_of_not_mem (fr : Frame) (col : String)
    (h : col ∉ fr.header) : catIdx fr col = none := by
  unfold catIdx
  have : ∀ (l : List String) (k : Nat), col ∉ l →
      l.findIdx? (fun c => c == col) k = none := by
    intro l
    induction l with
    | nil => intro k _; exact List.findIdx?_nil
    | cons a t ih =>
      intro k hmem
      rw [List.findIdx?_cons]
      have hne : ¬(a == col) = true := by
        intro hbeq
        exact hmem (List.mem_cons.mpr (Or.inl (beq_iff_eq.mp hbeq).symm))
      rw [if_neg hne]
      exact ih _ fun hc => hmem (List.mem_cons_of_mem _ hc)
  exact this fr.header 0 h

/-- Distinct non-null categories cover every row and stay duplicate-free
once the discovered list is known to contain no null. -/
theorem scats_nodup {fr : Frame} {i : Nat} {scats : List String}
    (hc : (fr.rows.map (fun r => fieldAt r i)).dedup = scats.map some) :
    scats.Nodup := by
  have h := List.nodup_dedup (fr.rows.map (fun r => fieldAt r i))
  rw [hc] at h
  exact List.Nodup.of_map some h

/-- Every row's category value appears among the discovered non-null
categories when discovery succeeded without nulls. -/
theorem scats_cover {fr : Frame} {i : Nat} {scats : List String}
    (hc : (fr.rows.map (fun r => fieldAt r i)).dedup = scats.map some)
    {r : Row} (hr : r ∈ fr.rows) :
    ∃ c ∈ scats, fieldAt r i = some c := by
  have hf : fieldAt r i ∈ (fr.rows.map (fun r' => fieldAt r' i)).dedup :=
    List.mem_dedup.mpr (List.mem_map_of_mem _ hr)
  rw [hc] at hf
  obtain ⟨c, hcm, hce⟩ := List.mem_map.mp hf
  exact ⟨c, hcm, hce.symm⟩

/-- With the category column kept, the rows of a sink are original input
rows whose category field is the sink's category. -/
theorem mem_routed_out_true {fr : Frame} {i : Nat} {col c : String} {q : Row}
    (hq : q ∈ (routedRows fr i c).map (outRow fr col true)) :
    q ∈ fr.rows ∧ fieldAt q i = some c := by
  have hmap : (routedRows fr i c).map (outRow fr col true) = routedRows fr i c := by
    have : outRow fr col true = fun r => r := rfl
    rw [this, List.map_id']
  rw [hmap] at hq
  have h := List.mem_filter.mp hq
  exact ⟨h.1, by simpa using h.2⟩

/-! ### Shared demo data (the concrete scenario of the specification) -/

/-- `data.csv` with header `id,region,value` and rows
`(1,EU,10)`, `(2,US,20)`, `(3,EU,30)`. -/
def demoFrame : Frame :=
  ⟨["id", "region", "value"],
   [[some "1", some "EU", some "10"],
    [some "2", some "US", some "20"],
    [some "3", some "EU", some "30"]]⟩

/-- The polars job's output on `demoFrame` with the category column
dropped (`List.dedup` puts `US` first here; polars fixes no order). -/
def demoPolarsOuts : List OutFile :=
  [⟨"US", "out/US/data.csv", ["id", "value"], [[some "2", some "20"]]⟩,
   ⟨"EU", "out/EU/data.csv", ["id", "value"],
    [[some "1", some "10"], [some "3", some "30"]]⟩]

/-- The pandas split's output on `demoFrame` (groups in sorted key order,
file names carrying the `_category` suffix). -/
def demoPandasOuts : List OutFile :=
  [⟨"EU", "out/EU/data_EU.csv", ["id", "value"],
    [[some "1", some "10"], [some "3", some "30"]]⟩,
   ⟨"US", "out/US/data_US.csv", ["id", "value"], [[some "2", some "20"]]⟩]

/-! ### Claims -/

/-- Claim C3, counterexample: a record whose category field is empty is
not written to any output file; the polars job fails with the path error
(`Path.joinpath(None)`) instead of producing a file for the null bucket. -/
theorem null_category_bucket_cex :
    runSplitJob ⟨["id", "region"], [[some "1", none]]⟩
      "data" "region" "out" false "csv" = .error .nullCategoryPath := rfl

/-- Claim C3, amended: records with an absent/empty category value are
retained by the discovery pass as a distinct null bucket, but the routing
pass then fails when building the null bucket's output path, so the whole
job errors out and such records are never written to an output file (they
are lost loudly through job failure, not silently dropped). -/
theorem null_category_retained_then_job_fails (fr : Frame)
    (fn col dir ext : String) (keep : Bool) (i : Nat) (r : Row)
    (hi : catIdx fr col = some i) (hr : r ∈ fr.rows)
    (hnull : fieldAt r i = none) :
    (extractUniqueCategories fr col =
        .ok ((fr.rows.map (fun r' => fieldAt r' i)).dedup) ∧
      none ∈ (fr.rows.map (fun r' => fieldAt r' i)).dedup) ∧
    runSplitJob fr fn col dir keep ext = .error .nullCategoryPath := by
  have hmem : (none : Option String) ∈ (fr.rows.map (fun r' => fieldAt r' i)).dedup := by
    have h : fieldAt r i ∈ fr.rows.map (fun r' => fieldAt r' i) :=
      List.mem_map_of_mem _ hr
    rw [hnull] at h
    exact List.mem_dedup.mpr h
  have hex : extractUniqueCategories fr col =
      .ok ((fr.rows.map (fun r' => fieldAt r' i)).dedup) := by
    unfold extractUniqueCategories
    rw [hi]
  refine ⟨⟨hex, hmem⟩, ?_⟩
  unfold runSplitJob
  rw [hex]
  unfold splitAndSaveByCategory
  rw [hi]
  exact saveLoop_none_mem fr i fn col dir ext keep _ hmem

/-- A one-row frame whose category field is empty. -/
def nullCatFrame : Frame := ⟨["id", "region"], [[some "7", none]]⟩

/-- Witness for the amended claim C3 at a concrete input. -/
theorem null_category_retained_then_job_fails_witness :
    (extractUniqueCategories nullCatFrame "region" =
        .ok ((nullCatFrame.rows.map (fun r' => fieldAt r' 1)).dedup) ∧
      none ∈ (nullCatFrame.rows.map (fun r' => fieldAt r' 1)).dedup) ∧
    runSplitJob nullCatFrame "data" "region" "out" false "csv" =
      .error .nullCategoryPath :=
  null_category_retained_then_job_fails nullCatFrame "data" "region" "out"
    "csv" false 1 [some "7", none] rfl (List.mem_cons_self _ _) rfl

/-- Claim C6, counterexample: with two input files of which the first
fails (its category column is absent), the run records the error but
processes nothing further, although the second file alone would have been
split successfully. -/
theorem run_failure_aborts_cex :
    runController [("a", ⟨["id"], [[some "1"]]⟩),
      ("b", ⟨["id", "region"], [[some "1", some "EU"]]⟩)]
      "region" "out" false "csv" = ⟨[], some .columnNotFound⟩ ∧
    runController [("b", ⟨["id", "region"], [[some "1", some "EU"]]⟩)]
      "region" "out" false "csv" =
      ⟨[("b", [⟨"EU", "out/EU/b.csv", ["id"], [[some "1"]]⟩])], none⟩ :=
  ⟨rfl, rfl⟩

/-- Claim C6, amended: the first failing file's error is caught and
recorded at the run level (the process does not crash), but the per-file
loop stops there: no remaining input file is processed. -/
theorem run_failure_aborts_remaining (fr : Frame) (nm col dir ext : String)
    (keep : Bool) (e : SplitError) (rest : List (String × Frame))
    (h : runSplitJob fr nm col dir keep ext = .error e) :
    runController ((nm, fr) :: rest) col dir keep ext = ⟨[], some e⟩ := by
  simp [runController, h]

/-- Witness for the amended claim C6 at a concrete input. -/
theorem run_failure_aborts_remaining_witness :
    runController [("a", ⟨["id"], [[some "1"]]⟩),
      ("b", ⟨["id", "region"], [[some "1", some "EU"]]⟩)]
      "region" "out" false "csv" = ⟨[], some .columnNotFound⟩ :=
  run_failure_aborts_remaining ⟨["id"], [[some "1"]]⟩ "a" "region" "out"
    "csv" false .columnNotFound
    [("b", ⟨["id", "region"], [[some "1", some "EU"]]⟩)] rfl

/-- Claim C7: a job whose category column does not resolve against the
header fails with the column-not-found error of its library (polars
`ColumnNotFoundError`; pandas `KeyError` from `astype`, the repository's
realization of the spec's `ColumnNotFound` taxon) before any per-category
write happens, so the job produces no output files. -/
theorem missing_column_job_fails (fr : Frame) (fn col dir ext fmt : String)
    (keep : Bool) (h : col ∉ fr.header) :
    runSplitJob fr fn col dir keep ext = .error .columnNotFound ∧
    splitAndSaveData fr col dir fn fmt keep = .error .keyError := by
  have hi := catIdx_eq_none_of_not_mem fr col h
  constructor
  · unfold runSplitJob extractUniqueCategories
    rw [hi]
  · unfold splitAndSaveData
    rw [hi]

/-- Witness for claim C7 at a concrete input. -/
theorem missing_column_job_fails_witness :
    runSplitJob ⟨["id", "value"], [[some "1", some "10"]]⟩
      "data" "region" "out" false "csv" = .error .columnNotFound ∧
    splitAndSaveData ⟨["id", "value"], [[some "1", some "10"]]⟩
      "region" "out" "data" "csv" false = .error .keyError :=
  missing_column_job_fails ⟨["id", "value"], [[some "1", some "10"]]⟩
    "data" "region" "out" "csv" "csv" false (by decide)

/-- Claim C8: the split is deterministic up to the (unspecified) order in
which polars' `unique()` yields the categories: two runs whose discovered
category lists are permutations of each other produce the same set of
output files (same paths, same contents), so re-running an unchanged job
into a cleared directory reproduces a byte-identical file set. -/
theorem split_output_set_reproducible (fr : Frame)
    (fn col dir ext : String) (keep : Bool)
    (catsA catsB : List (Option String)) (outsA outsB : List OutFile)
    (hperm : catsA.Perm catsB)
    (hA : splitAndSaveByCategory fr catsA fn col dir keep ext = .ok outsA)
    (hB : splitAndSaveByCategory fr catsB fn col dir keep ext = .ok outsB) :
    outsA.Perm outsB := by
  unfold splitAndSaveByCategory at hA hB
  cases hi : catIdx fr col with
  | none => rw [hi] at hA; cases hA
  | some i =>
    rw [hi] at hA hB
    simp only at hA hB
    obtain ⟨sA, hcA, hoA⟩ := saveLoop_ok_decomp fr i fn col dir ext keep _ _ hA
    obtain ⟨sB, hcB, hoB⟩ := saveLoop_ok_decomp fr i fn col dir ext keep _ _ hB
    have hs : sA.Perm sB := by
      have hp := hperm.filterMap id
      rw [hcA, hcB] at hp
      simpa [List.filterMap_map, Function.comp, List.filterMap_some] using hp
    rw [hoA, hoB]
    exact hs.map _

/-- Witness for claim C8 at a concrete input: the two discovery orders of
the demo categories yield the same file set. -/
theorem split_output_set_reproducible_witness :
    ([⟨"EU", "out/EU/data.csv", ["id"], [[some "1"]]⟩,
      ⟨"US", "out/US/data.csv", ["id"], [[some "2"]]⟩] : List OutFile).Perm
      [⟨"US", "out/US/data.csv", ["id"], [[some "2"]]⟩,
       ⟨"EU", "out/EU/data.csv", ["id"], [[some "1"]]⟩] :=
  split_output_set_reproducible
    ⟨["id", "region"], [[some "1", some "EU"], [some "2", some "US"]]⟩
    "data" "region" "out" "csv" false
    [some "EU", some "US"] [some "US", some "EU"] _ _
    (List.Perm.swap _ _ _) rfl rfl

/-- Claim C10: the pandas entry point, handed an existing directory while
`process_all` is left at its default `false`, runs neither `if` branch of
`main`: no file is read, no output is produced, and no error is raised. -/
theorem dir_without_process_all_is_noop (entries : List (String × Frame))
    (col dir fmt : String) (keep : Bool) :
    pandasMain (.dir entries) false col dir fmt keep = .ok [] := rfl

/-- The pandas output on `demoFrame`, used as the concrete refutation of
the claimed path layout. -/
def layoutPandasOuts : List OutFile :=
  [⟨"EU", "out/EU/data_EU.csv", ["id", "value"],
    [[some "1", some "10"], [some "3", some "30"]]⟩,
   ⟨"US", "out/US/data_US.csv", ["id", "value"], [[some "2", some "20"]]⟩]

/-- Claim C4, counterexample: the pandas splitter does not name the file
inside the category directory `stem.extension`; it appends `_category` to
the stem, so the demo split writes `out/EU/data_EU.csv` and no file named
`out/EU/data.csv` exists. -/
theorem output_path_layout_cex :
    splitAndSaveData demoFrame "region" "out" "data" "csv" false =
      .ok layoutPandasOuts ∧
    layoutPandasOuts.map OutFile.path =
      ["out/EU/data_EU.csv", "out/US/data_US.csv"] ∧
    "out/EU/data.csv" ∉ layoutPandasOuts.map OutFile.path :=
  ⟨rfl, rfl, by decide⟩

/-- Claim C4, amended: every produced file sits inside the category-value
subdirectory under the output directory; the polars splitter names it
`stem.extension` as claimed, while the pandas splitter names it
`stem_category.extension`. -/
theorem output_path_layout :
    (∀ (fr : Frame) (fn col dir ext : String) (keep : Bool)
        (outs : List OutFile) (o : OutFile),
        runSplitJob fr fn col dir keep ext = .ok outs → o ∈ outs →
        o.path = dir ++ "/" ++ o.cat ++ "/" ++ fn ++ "." ++ ext) ∧
    (∀ (fr : Frame) (col dir fn fmt : String) (keep : Bool)
        (outs : List OutFile) (o : OutFile),
        splitAndSaveData fr col dir fn fmt keep = .ok outs → o ∈ outs →
        o.path = dir ++ "/" ++ o.cat ++ "/" ++ fn ++ "_" ++ o.cat ++ "." ++ fmt) := by
  constructor
  · intro fr fn col dir ext keep outs o hok ho
    obtain ⟨i, scats, hi, hc, houts⟩ :=
      runSplitJob_ok_decomp fr fn col dir ext keep outs hok
    rw [houts] at ho
    obtain ⟨c, hcm, rfl⟩ := List.mem_map.mp ho
    rfl
  · intro fr col dir fn fmt keep outs o hok ho
    obtain ⟨i, hi, houts⟩ :=
      splitAndSaveData_ok_decomp fr col dir fn fmt keep outs hok
    rw [houts] at ho
    obtain ⟨c, hcm, rfl⟩ := List.mem_map.mp ho
    rfl

/-- Witness for the amended claim C4 at a concrete input. -/
theorem output_path_layout_witness :
    OutFile.path ⟨"US", "out/US/data.csv", ["id", "value"],
        [[some "2", some "20"]]⟩ =
      "out" ++ "/" ++ "US" ++ "/" ++ "data" ++ "." ++ "csv" ∧
    OutFile.path ⟨"EU", "out/EU/data_EU.csv", ["id", "value"],
        [[some "1", some "10"], [some "3", some "30"]]⟩ =
      "out" ++ "/" ++ "EU" ++ "/" ++ "data" ++ "_" ++ "EU" ++ "." ++ "csv" :=
  ⟨output_path_layout.1 demoFrame "data" "region" "out" "csv" false
      demoPolarsOuts _ rfl (List.mem_cons_self _ _),
   output_path_layout.2 demoFrame "region" "out" "data" "csv" false
      demoPandasOuts _ rfl (List.mem_cons_self _ _)⟩

/-- Claim C5: with `keep_category_column` false no output file carries the
category column; with it true every output row is an unmodified input row
whose category field still holds its original value (the sink's category). -/
theorem category_column_drop_invariant :
    (∀ (fr : Frame) (fn col dir ext : String) (keep : Bool)
        (outs : List OutFile) (i : Nat) (o : OutFile),
        runSplitJob fr fn col dir keep ext = .ok outs →
        catIdx fr col = some i → o ∈ outs →
        (keep = false → col ∉ o.header) ∧
        (keep = true → o.header = fr.header ∧
          ∀ q ∈ o.rows, q ∈ fr.rows ∧ fieldAt q i = some o.cat)) ∧
    (∀ (fr : Frame) (col dir fn fmt : String) (keep : Bool)
        (outs : List OutFile) (i : Nat) (o : OutFile),
        splitAndSaveData fr col dir fn fmt keep = .ok outs →
        catIdx fr col = some i → o ∈ outs →
        (keep = false → col ∉ o.header) ∧
        (keep = true → o.header = fr.header ∧
          ∀ q ∈ o.rows, q ∈ fr.rows ∧ fieldAt q i = some o.cat)) := by
  constructor
  · intro fr fn col dir ext keep outs i o hok hi ho
    obtain ⟨i2, scats, hi2, hc, houts⟩ :=
      runSplitJob_ok_decomp fr fn col dir ext keep outs hok
    rw [hi] at hi2
    cases hi2
    rw [houts] at ho
    obtain ⟨c, hcm, rfl⟩ := List.mem_map.mp ho
    constructor
    · rintro rfl hcontra
      have h := (List.mem_filter.mp hcontra).2
      simp at h
    · rintro rfl
      exact ⟨rfl, fun q hq => mem_routed_out_true hq⟩
  · intro fr col dir fn fmt keep outs i o hok hi ho
    obtain ⟨i2, hi2, houts⟩ :=
      splitAndSaveData_ok_decomp fr col dir fn fmt keep outs hok
    rw [hi] at hi2
    cases hi2
    rw [houts] at ho
    obtain ⟨c, hcm, rfl⟩ := List.mem_map.mp ho
    constructor
    · rintro rfl hcontra
      have h := (List.mem_filter.mp hcontra).2
      simp at h
    · rintro rfl
      exact ⟨rfl, fun q hq => mem_routed_out_true hq⟩

/-- The polars job's output on `demoFrame` with the category column kept. -/
def demoPolarsOutsKeep : List OutFile :=
  [⟨"US", "out/US/data.csv", ["id", "region", "value"],
    [[some "2", some "US", some "20"]]⟩,
   ⟨"EU", "out/EU/data.csv", ["id", "region", "value"],
    [[some "1", some "EU", some "10"], [some "3", some "EU", some "30"]]⟩]

/-- Witness for claim C5 at concrete inputs, covering both polarities of
`keep_category_column`. -/
theorem category_column_drop_invariant_witness :
    "region" ∉ (⟨"US", "out/US/data.csv", ["id", "value"],
        [[some "2", some "20"]]⟩ : OutFile).header ∧
    (⟨"US", "out/US/data.csv", ["id", "region", "value"],
        [[some "2", some "US", some "20"]]⟩ : OutFile).header =
      demoFrame.header :=
  ⟨(category_column_drop_invariant.1 demoFrame "data" "region" "out" "csv"
      false demoPolarsOuts 1 _ rfl rfl (List.mem_cons_self _ _)).1 rfl,
   ((category_column_drop_invariant.1 demoFrame "data" "region" "out" "csv"
      true demoPolarsOutsKeep 1 _ rfl rfl (List.mem_cons_self _ _)).2 rfl).1⟩

/-- Claim C9: routing is order-preserving within each category: the rows
of a sink are exactly the input rows whose category matches, encoded in
input order, and that selection is an in-order subsequence of the input. -/
theorem routing_order_preserving :
    (∀ (fr : Frame) (fn col dir ext : String) (keep : Bool)
        (outs : List OutFile) (i : Nat) (o : OutFile),
        runSplitJob fr fn col dir keep ext = .ok outs →
        catIdx fr col = some i → o ∈ outs →
        o.rows = (fr.rows.filter
            (fun r => fieldAt r i == some o.cat)).map (outRow fr col keep) ∧
        (fr.rows.filter (fun r => fieldAt r i == some o.cat)).Sublist fr.rows) ∧
    (∀ (fr : Frame) (col dir fn fmt : String) (keep : Bool)
        (outs : List OutFile) (i : Nat) (o : OutFile),
        splitAndSaveData fr col dir fn fmt keep = .ok outs →
        catIdx fr col = some i → o ∈ outs →
        o.rows = (fr.rows.filter
            (fun r => fieldAt r i == some o.cat)).map (outRow fr col keep) ∧
        (fr.rows.filter (fun r => fieldAt r i == some o.cat)).Sublist fr.rows) := by
  constructor
  · intro fr fn col dir ext keep outs i o hok hi ho
    obtain ⟨i2, scats, hi2, hc, houts⟩ :=
      runSplitJob_ok_decomp fr fn col dir ext keep outs hok
    rw [hi] at hi2
    cases hi2
    rw [houts] at ho
    obtain ⟨c, hcm, rfl⟩ := List.mem_map.mp ho
    exact ⟨rfl, List.filter_sublist _⟩
  · intro fr col dir fn fmt keep outs i o hok hi ho
    obtain ⟨i2, hi2, houts⟩ :=
      splitAndSaveData_ok_decomp fr col dir fn fmt keep outs hok
    rw [hi] at hi2
    cases hi2
    rw [houts] at ho
    obtain ⟨c, hcm, rfl⟩ := List.mem_map.mp ho
    exact ⟨rfl, List.filter_sublist _⟩

/-- Witness for claim C9 at a concrete input: the EU sink holds rows 1 and
3 in input order. -/
theorem routing_order_preserving_witness :
    (⟨"EU", "out/EU/data.csv", ["id", "value"],
        [[some "1", some "10"], [some "3", some "30"]]⟩ : OutFile).rows =
      (demoFrame.rows.filter
        (fun r => fieldAt r 1 == some "EU")).map (outRow demoFrame "region" false) ∧
    (demoFrame.rows.filter (fun r => fieldAt r 1 == some "EU")).Sublist
      demoFrame.rows :=
  routing_order_preserving.1 demoFrame "data" "region" "out" "csv" false
    demoPolarsOuts 1 _ rfl rfl
    (List.mem_cons_of_mem _ (List.mem_cons_self _ _))

/-- Claim C1, counterexample: in the pandas variant a well-formed record
whose category field is missing belongs to no group (`groupby` drops NaN
keys), so the job completes successfully while the record is written to
zero output files — and it was never counted as a malformed skip. -/
theorem partition_zero_files_cex :
    splitAndSaveData ⟨["id", "region"], [[some "1", none]]⟩
      "region" "out" "data" "csv" false = .ok [] ∧
    [some "1", none] ∈ (⟨["id", "region"], [[some "1", none]]⟩ : Frame).rows :=
  ⟨rfl, List.mem_cons_self _ _⟩

/-- Claim C1, amended: every input record whose category value is present
is routed to exactly one output file — the one for its category value —
and its encoded form is written there; records with a missing category
value are silently dropped by the pandas variant's group-by, while the
polars variant fails the whole job on them (claim C3). -/
theorem partition_routes_each_record_once :
    (∀ (fr : Frame) (fn col dir ext : String) (keep : Bool)
        (outs : List OutFile) (i : Nat) (r : Row),
        runSplitJob fr fn col dir keep ext = .ok outs →
        catIdx fr col = some i → r ∈ fr.rows →
        outs.countP (fun o => fieldAt r i == some o.cat) = 1 ∧
        ∀ o ∈ outs, fieldAt r i = some o.cat → outRow fr col keep r ∈ o.rows) ∧
    (∀ (fr : Frame) (col dir fn fmt : String) (keep : Bool)
        (outs : List OutFile) (i : Nat) (r : Row) (c : String),
        splitAndSaveData fr col dir fn fmt keep = .ok outs →
        catIdx fr col = some i → r ∈ fr.rows → fieldAt r i = some c →
        outs.countP (fun o => o.cat == c) = 1 ∧
        ∀ o ∈ outs, o.cat = c → outRow fr col keep r ∈ o.rows) := by
  constructor
  · intro fr fn col dir ext keep outs i r hok hi hr
    obtain ⟨i2, scats, hi2, hc, houts⟩ :=
      runSplitJob_ok_decomp fr fn col dir ext keep outs hok
    rw [hi] at hi2
    cases hi2
    subst houts
    obtain ⟨c₀, hc₀m, hfe⟩ := scats_cover hc hr
    constructor
    · rw [List.countP_map]
      have hpred : ((fun o => fieldAt r i == some o.cat) ∘
          polarsOut fr i fn col dir ext keep) =
          fun c => fieldAt r i == some c := rfl
      rw [hpred, hfe]
      exact countP_beq_left_one (scats_nodup hc) hc₀m
    · intro o ho hfo
      obtain ⟨c, hcm, rfl⟩ := List.mem_map.mp ho
      refine List.mem_map_of_mem _ ?_
      refine List.mem_filter.mpr ⟨hr, ?_⟩
      rw [hfo]
      exact beq_self_eq_true (some c)
  · intro fr col dir fn fmt keep outs i r c hok hi hr hfield
    obtain ⟨i2, hi2, houts⟩ :=
      splitAndSaveData_ok_decomp fr col dir fn fmt keep outs hok
    rw [hi] at hi2
    cases hi2
    subst houts
    have hcm : c ∈ pandasGroups fr i := by
      apply (mem_pandasGroups fr i c).mpr
      have h : fieldAt r i ∈ fr.rows.map (fun r' => fieldAt r' i) :=
        List.mem_map_of_mem _ hr
      rw [hfield] at h
      exact h
    constructor
    · rw [List.countP_map]
      exact countP_beq_right_one (nodup_pandasGroups fr i) hcm
    · intro o ho hoc
      obtain ⟨g, hgm, rfl⟩ := List.mem_map.mp ho
      have hg : g = c := hoc
      subst hg
      exact List.mem_map_of_mem _ (List.mem_filter.mpr ⟨hr, by simp [hfield]⟩)

/-- Witness for the amended claim C1 at a concrete input: record
`(1,EU,10)` of the demo file is routed to exactly one sink in both
variants. -/
theorem partition_routes_each_record_once_witness :
    demoPolarsOuts.countP
        (fun o => fieldAt [some "1", some "EU", some "10"] 1 == some o.cat) = 1 ∧
    demoPandasOuts.countP (fun o => o.cat == "EU") = 1 :=
  ⟨(partition_routes_each_record_once.1 demoFrame "data" "region" "out" "csv"
      false demoPolarsOuts 1 [some "1", some "EU", some "10"] rfl rfl
      (List.mem_cons_self _ _)).1,
   (partition_routes_each_record_once.2 demoFrame "region" "out" "data" "csv"
      false demoPandasOuts 1 [some "1", some "EU", some "10"] "EU" rfl rfl
      (List.mem_cons_self _ _) rfl).1⟩

/-- Claim C2, counterexample: the pandas variant completes on a two-row
input holding one missing category value, yet its output files hold one
row in total while nothing was counted as a malformed skip, so the totals
claimed equal are 1 and 2. -/
theorem row_count_conservation_cex :
    splitAndSaveData ⟨["id", "region"], [[some "1", some "EU"], [some "2", none]]⟩
      "region" "out" "data" "csv" false =
      .ok [⟨"EU", "out/EU/data_EU.csv", ["id"], [[some "1"]]⟩] ∧
    (([⟨"EU", "out/EU/data_EU.csv", ["id"], [[some "1"]]⟩] : List OutFile).map
        (fun o => o.rows.length)).sum = 1 ∧
    ([[some "1", some "EU"], [some "2", none]] : List Row).length = 2 :=
  ⟨rfl, rfl, rfl⟩

/-- Claim C2, amended: a completed polars job accounts for every input row
(the row counts of its output files sum to the input row count; it never
skips rows — malformed or null-category input aborts the job instead),
while a completed pandas job accounts exactly for the rows whose category
value is present, the missing-category rows being dropped. -/
theorem row_count_conservation :
    (∀ (fr : Frame) (fn col dir ext : String) (keep : Bool)
        (outs : List OutFile),
        runSplitJob fr fn col dir keep ext = .ok outs →
        (outs.map (fun o => o.rows.length)).sum = fr.rows.length) ∧
    (∀ (fr : Frame) (col dir fn fmt : String) (keep : Bool)
        (outs : List OutFile) (i : Nat),
        splitAndSaveData fr col dir fn fmt keep = .ok outs →
        catIdx fr col = some i →
        (outs.map (fun o => o.rows.length)).sum =
          fr.rows.countP (fun r => (fieldAt r i).isSome)) := by
  constructor
  · intro fr fn col dir ext keep outs hok
    obtain ⟨i, scats, hi, hc, houts⟩ :=
      runSplitJob_ok_decomp fr fn col dir ext keep outs hok
    subst houts
    rw [List.map_map]
    have hlen : ((fun o => o.rows.length) ∘ polarsOut fr i fn col dir ext keep) =
        fun c => fr.rows.countP (fun r => fieldAt r i == some c) := by
      funext c
      show ((routedRows fr i c).map (outRow fr col keep)).length = _
      rw [List.length_map]
      unfold routedRows
      rw [← List.countP_eq_length_filter]
    have hcov : ∀ r ∈ fr.rows, ∀ c, fieldAt r i = some c → c ∈ scats := by
      intro r hr c hfc
      obtain ⟨c₀, hm, he⟩ := scats_cover hc hr
      rw [hfc] at he
      exact (Option.some.inj he) ▸ hm
    rw [hlen, sum_routed_counts i scats fr.rows (scats_nodup hc) hcov]
    apply List.countP_eq_length.mpr
    intro r hr
    obtain ⟨c, _, hfe⟩ := scats_cover hc hr
    simp [hfe]
  · intro fr col dir fn fmt keep outs i hok hi
    obtain ⟨i2, hi2, houts⟩ :=
      splitAndSaveData_ok_decomp fr col dir fn fmt keep outs hok
    rw [hi] at hi2
    cases hi2
    subst houts
    rw [List.map_map]
    have hlen : ((fun o => o.rows.length) ∘ pandasOut fr i col dir fn fmt keep) =
        fun c => fr.rows.countP (fun r => fieldAt r i == some c) := by
      funext c
      show ((routedRows fr i c).map (outRow fr col keep)).length = _
      rw [List.length_map]
      unfold routedRows
      rw [← List.countP_eq_length_filter]
    have hcov : ∀ r ∈ fr.rows, ∀ c, fieldAt r i = some c → c ∈ pandasGroups fr i := by
      intro r hr c hfc
      apply (mem_pandasGroups fr i c).mpr
      have h : fieldAt r i ∈ fr.rows.map (fun r' => fieldAt r' i) :=
        List.mem_map_of_mem _ hr
      rw [hfc] at h
      exact h
    rw [hlen,
      sum_routed_counts i (pandasGroups fr i) fr.rows (nodup_pandasGroups fr i) hcov]

/-- Witness for the amended claim C2 at a concrete input: the demo polars
job's outputs hold all 3 input rows; the demo pandas job's outputs hold
all rows with a present category value. -/
theorem row_count_conservation_witness :
    (demoPolarsOuts.map (fun o => o.rows.length)).sum = demoFrame.rows.length ∧
    (demoPandasOuts.map (fun o => o.rows.length)).sum =
      demoFrame.rows.countP (fun r => (fieldAt r 1).isSome) :=
  ⟨row_count_conservation.1 demoFrame "data" "region" "out" "csv" false
      demoPolarsOuts rfl,
   row_count_conservation.2 demoFrame "region" "out" "data" "csv" false
      demoPandasOuts 1 rfl rfl⟩

end DataOps
